import Mathlib

/-!
# go-2d-graphics: the sprite simulation of `internal/game/window.go`

A shallow embedding of the parts of `window.go` and `main.go` that decide the behaviour of the
sprite simulation: the texture catalog, object creation, the initial mesh build, the motion step
`updateObject`, the simulation tick, `NewWindow`, and the byte lengths handed to the buffer
uploads. The `float64` clock of the render loop (`accumulator`, `dt`, `frameTime`), which decides
how many ticks a frame runs, is not part of the embedding.

Conventions of the embedding.

* Go's `int16` and `uint16` values are integers of `Int`; every conversion and every `int16`
  operation is followed by `toInt16`, which keeps the low 16 bits as a signed value.
* Go's `int` is the 64-bit signed integer: `int` arithmetic is followed by `wrapInt`.
* `float32` texture coordinates are only ever copied, never computed with, and are rationals.
* A slice is a `List`; an index expression out of range panics, which is `none`.
* `rand.Intn(n)` takes its value from an arbitrary stream `raw : Nat → Nat` of draws, reduced
  modulo `n`; it panics for `n ≤ 0`.
-/

namespace Game

/-! ## Machine integers -/

/-- Conversion to `int16`: the low 16 bits, read as a signed value. -/
def toInt16 (v : Int) : Int := (v + 32768) % 65536 - 32768

/-- Result of 64-bit `int` arithmetic: the low 64 bits, read as a signed value. -/
def wrapInt (v : Int) : Int := (v + 9223372036854775808) % 18446744073709551616 - 9223372036854775808

/-! ## Data model (`window.go` lines 21-38, 162-172) -/

/-- The constant `ObjectCount`. -/
def ObjectCount : Nat := 500

/-- The struct `Texture`: pixel size (`uint16` values, `0 ≤ · < 65536`) and the UV rectangle
(`float32`). -/
structure Texture where
  width : Int
  height : Int
  u1 : ℚ
  v1 : ℚ
  u2 : ℚ
  v2 : ℚ
  deriving DecidableEq, Repr

/-- The struct `Object`: a position (`int16` values, `-32768 ≤ · ≤ 32767`) and its texture
region. -/
structure Object where
  x : Int
  y : Int
  texture : Texture
  deriving DecidableEq, Repr

/-- The struct `Window`. -/
structure Window where
  title : String
  width : Int
  height : Int
  deriving DecidableEq, Repr

/-- The struct `WindowConfig`. -/
structure WindowConfig where
  Title : String
  Width : Int
  Height : Int
  deriving DecidableEq, Repr

/-! ## The texture catalog (`window.go` lines 40-131) -/

def watermelon : Texture := { width := 64, height := 64, u1 := 0, v1 := 0, u2 := 1/2, v2 := 1/2 }

def pineapple : Texture := { width := 64, height := 64, u1 := 1/2, v1 := 0, u2 := 1, v2 := 1/2 }

def orange : Texture := { width := 32, height := 32, u1 := 0, v1 := 1/2, u2 := 1/4, v2 := 3/4 }

def grapes : Texture := { width := 32, height := 32, u1 := 1/4, v1 := 1/2, u2 := 1/2, v2 := 3/4 }

def pear : Texture := { width := 32, height := 32, u1 := 0, v1 := 3/4, u2 := 1/4, v2 := 1 }

def banana : Texture := { width := 32, height := 32, u1 := 1/4, v1 := 3/4, u2 := 1/2, v2 := 1 }

def strawberry : Texture :=
  { width := 16, height := 16, u1 := 1/2, v1 := 1/2, u2 := 5/8, v2 := 5/8 }

def raspberry : Texture :=
  { width := 16, height := 16, u1 := 5/8, v1 := 1/2, u2 := 3/4, v2 := 5/8 }

def cherries : Texture :=
  { width := 16, height := 16, u1 := 1/2, v1 := 5/8, u2 := 5/8, v2 := 3/4 }

/-- The slice `possibleTextures`, in the order of the source. -/
def possibleTextures : List Texture :=
  [watermelon, pineapple, orange, grapes, pear, banana, strawberry, cherries, raspberry]

/-! ## `NewWindow` (`window.go` lines 174-184) -/

/-- The function `NewWindow`; a nil `*WindowConfig` is `none`. -/
def NewWindow (cfg : Option WindowConfig) : Except String Window :=
  match cfg with
  | none => .error "window missing config"
  | some c => .ok { title := c.Title, width := c.Width, height := c.Height }

/-! ## Slices and the random source -/

/-- The assignment `buf[k] = v` with a Go `int` index: it panics when `k` is out of range. -/
def store {α : Type} (buf : List α) (k : Int) (v : α) : Option (List α) :=
  if 0 ≤ k ∧ k < buf.length then some (buf.set k.toNat v) else none

/-- A sequence of assignments `buf[k] = v`, run in order; the first panic stops it. -/
def storeAll {α : Type} : List (Int × α) → List α → Option (List α)
  | [], buf => some buf
  | (k, v) :: rest, buf => (store buf k v).bind (storeAll rest)

/-- The call `rand.Intn(n)` when the source's next draw is `raw c`: a value of `[0, n)`, and a
panic for `n ≤ 0`. -/
def intn (raw : Nat → Nat) (c : Nat) (n : Int) : Option Int :=
  if n ≤ 0 then none else some ((raw c : Int) % n)

/-- The Go index expression `idx*12 + j` for `0 ≤ j < 12` (written `idx*12` for `j = 0`). -/
def blockIndex (idx : Int) (j : Int) : Int := wrapInt (wrapInt (idx * 12) + j)

/-! ## The quad of one object (`window.go` lines 276-323 and 444-466) -/

/-- The twelve assignments to `vertices` of the initial build (lines 278-299), for `i` and
`objects[i]`. -/
def initVertexStores (i : Int) (object : Object) : List (Int × Int) :=
  [ -- top right
    (blockIndex i 0, toInt16 (object.x + toInt16 object.texture.width)),
    (blockIndex i 1, object.y),
    -- bottom right
    (blockIndex i 2, toInt16 (object.x + toInt16 object.texture.width)),
    (blockIndex i 3, toInt16 (object.y + toInt16 object.texture.height)),
    -- top left
    (blockIndex i 4, object.x),
    (blockIndex i 5, object.y),
    -- bottom right
    (blockIndex i 6, toInt16 (object.x + toInt16 object.texture.width)),
    (blockIndex i 7, toInt16 (object.y + toInt16 object.texture.height)),
    -- bottom left
    (blockIndex i 8, object.x),
    (blockIndex i 9, toInt16 (object.y + toInt16 object.texture.height)),
    -- top left
    (blockIndex i 10, object.x),
    (blockIndex i 11, object.y) ]

/-- The twelve assignments to `vertices` of `updateObject` (lines 445-466). -/
def quadStores (idx : Int) (object : Object) : List (Int × Int) :=
  [ -- top right
    (blockIndex idx 0, toInt16 (object.x + toInt16 object.texture.width)),
    (blockIndex idx 1, object.y),
    -- bottom right
    (blockIndex idx 2, toInt16 (object.x + toInt16 object.texture.width)),
    (blockIndex idx 3, toInt16 (object.y + toInt16 object.texture.height)),
    -- top left
    (blockIndex idx 4, object.x),
    (blockIndex idx 5, object.y),
    -- bottom right
    (blockIndex idx 6, toInt16 (object.x + toInt16 object.texture.width)),
    (blockIndex idx 7, toInt16 (object.y + toInt16 object.texture.height)),
    -- bottom left
    (blockIndex idx 8, object.x),
    (blockIndex idx 9, toInt16 (object.y + toInt16 object.texture.height)),
    -- top left
    (blockIndex idx 10, object.x),
    (blockIndex idx 11, object.y) ]

/-- The twelve assignments to `uvs` of the initial build (lines 302-323). -/
def uvStores (idx : Int) (object : Object) : List (Int × ℚ) :=
  [ -- top right
    (blockIndex idx 0, object.texture.u2),
    (blockIndex idx 1, object.texture.v2),
    -- bottom right
    (blockIndex idx 2, object.texture.u2),
    (blockIndex idx 3, object.texture.v1),
    -- top left
    (blockIndex idx 4, object.texture.u1),
    (blockIndex idx 5, object.texture.v2),
    -- bottom right
    (blockIndex idx 6, object.texture.u2),
    (blockIndex idx 7, object.texture.v1),
    -- bottom left
    (blockIndex idx 8, object.texture.u1),
    (blockIndex idx 9, object.texture.v1),
    -- top left
    (blockIndex idx 10, object.texture.u1),
    (blockIndex idx 11, object.texture.v2) ]

/-! ## `updateObject` (`window.go` lines 423-467) -/

/-- Lines 424-442 of `updateObject`: the random displacement and the clamp. `rx` and `ry` are the
values of the two calls `rand.Intn(5)`. -/
def moveObject (w : Window) (rx ry : Int) (object : Object) : Object :=
  let x := toInt16 (object.x + toInt16 (wrapInt (rx - 2)))
  let y := toInt16 (object.y + toInt16 (wrapInt (ry - 2)))
  let x := if x < 5 then 5 else x
  let x := if x > toInt16 (wrapInt (wrapInt (w.width - 5) - object.texture.width)) then
      toInt16 (toInt16 (wrapInt (w.width - 5)) - toInt16 object.texture.width)
    else x
  let y := if y < 5 then 5 else y
  let y := if y > toInt16 (wrapInt (wrapInt (w.height - 5) - object.texture.height)) then
      toInt16 (toInt16 (wrapInt (w.height - 5)) - toInt16 object.texture.height)
    else y
  { object with x := x, y := y }

/-- The method `updateObject`: the object after the call and the position buffer after the call,
or `none` when an index is out of range. -/
def updateObject (w : Window) (idx : Int) (rx ry : Int) (object : Object) (vertices : List Int) :
    Option (Object × List Int) :=
  let object := moveObject w rx ry object
  (storeAll (quadStores idx object) vertices).map (fun vertices => (object, vertices))

/-! ## Object creation and the initial mesh build (`window.go` lines 261-324) -/

/-- The index expression `l[k]` with a Go `int` index: a panic when `k` is out of range. -/
def index {α : Type} (l : List α) (k : Int) : Option α :=
  if 0 ≤ k then l[k.toNat]? else none

/-- The call `make([]T, n)`: `n` zero values. -/
def makeSlice {α : Type} [Zero α] (n : Nat) : List α := List.replicate n 0

/-- The composite literal of lines 269-273, for `texIndex` and the values `rx`, `ry` of
`rand.Intn(w.width)` and `rand.Intn(w.height)`. -/
def newObject (texIndex rx ry : Int) : Option Object :=
  (index possibleTextures texIndex).map
    (fun texture => { x := toInt16 rx, y := toInt16 ry, texture := texture })

/-- One iteration of the loop of lines 266-274; the state is the slice `objects` and the number
of draws taken from the random source. -/
def initStep (w : Window) (raw : Nat → Nat) (s : List Object × Nat) : Option (List Object × Nat) :=
  (intn raw s.2 (wrapInt ((possibleTextures.length : Int) - 1))).bind fun texIndex =>
  (intn raw (s.2 + 1) w.width).bind fun rx =>
  (intn raw (s.2 + 2) w.height).bind fun ry =>
  (newObject texIndex rx ry).map fun object => (s.1 ++ [object], s.2 + 3)

/-- The first `n` iterations of the loop of lines 266-274. -/
def initLoop (w : Window) (raw : Nat → Nat) : Nat → List Object × Nat → Option (List Object × Nat)
  | 0, s => some s
  | n + 1, s => (initLoop w raw n s).bind (initStep w raw)

/-- Lines 264-274: `objects := make([]Object, 0)` and the loop that appends `ObjectCount`
objects. -/
def initObjects (w : Window) (raw : Nat → Nat) : Option (List Object × Nat) :=
  initLoop w raw ObjectCount ([], 0)

/-- Iteration `i` of the loop of lines 276-324 on the pair `(vertices, uvs)`. -/
def buildStep (objects : List Object) (i : Nat) (s : List Int × List ℚ) :
    Option (List Int × List ℚ) :=
  objects[i]?.bind fun object =>
  (storeAll (initVertexStores i object) s.1).bind fun vertices =>
  (storeAll (uvStores i object) s.2).map fun uvs => (vertices, uvs)

/-- The first `n` iterations of the loop of lines 276-324. -/
def buildLoop (objects : List Object) : Nat → List Int × List ℚ → Option (List Int × List ℚ)
  | 0, s => some s
  | n + 1, s => (buildLoop objects n s).bind (buildStep objects n)

/-- The initial mesh build: lines 261-262 and the loop of lines 276-324. -/
def buildMesh (objects : List Object) : Option (List Int × List ℚ) :=
  buildLoop objects ObjectCount (makeSlice (ObjectCount * 12), makeSlice (ObjectCount * 12))

/-- The vertex count passed to `gl.DrawArrays` (line 409). -/
def drawCount : Nat := ObjectCount * 6

/-! ## Buffer byte lengths (`window.go` lines 335-339) -/

/-- The value of `unsafe.Sizeof` for a slice value on a 64-bit target: pointer, length,
capacity. -/
def sizeOfSliceHeader : Nat := 24

/-- The value `sizeOfInt16`. -/
def sizeOfInt16 : Nat := 2

/-- The value `sizeOfFloat32`. -/
def sizeOfFloat32 : Nat := 4

/-- The value `sizeOfVertices` of line 336:
`unsafe.Sizeof(vertices) + unsafe.Sizeof([ObjectCount * 12]int16{})`. -/
def sizeOfVertices : Nat := sizeOfSliceHeader + ObjectCount * 12 * sizeOfInt16

/-- The value `sizeOfUvs` of line 339:
`unsafe.Sizeof(uvs) + unsafe.Sizeof([ObjectCount * 12]float32{})`. -/
def sizeOfUvs : Nat := sizeOfSliceHeader + ObjectCount * 12 * sizeOfFloat32

/-! ## The simulation tick (`window.go` lines 393-405) -/

/-- The part of the state of `OpenAndWait` the render loop works on: the object store, the two
vertex buffers and the number of draws taken from the random source. -/
structure World where
  objects : List Object
  vertices : List Int
  uvs : List ℚ
  cursor : Nat
  deriving DecidableEq, Repr

/-- The call `w.updateObject(i, &objects[i], vertices)` of line 397, the two calls of
`rand.Intn(5)` taking the next two draws. -/
def tickStep (w : Window) (raw : Nat → Nat) (i : Nat) (s : World) : Option World :=
  s.objects[i]?.bind fun object =>
  (intn raw s.cursor 5).bind fun rx =>
  (intn raw (s.cursor + 1) 5).bind fun ry =>
  (updateObject w i rx ry object s.vertices).map fun r =>
    { s with objects := s.objects.set i r.1, vertices := r.2, cursor := s.cursor + 2 }

/-- The first `n` iterations of the loop of lines 396-398. -/
def tickLoop (w : Window) (raw : Nat → Nat) : Nat → World → Option World
  | 0, s => some s
  | n + 1, s => (tickLoop w raw n s).bind (tickStep w raw n)

/-- One simulation tick: the loop of lines 396-398. -/
def tick (w : Window) (raw : Nat → Nat) (s : World) : Option World :=
  tickLoop w raw ObjectCount s

/-- The world after `n` iterations of the loop of lines 393-405, each running one tick. -/
def ticks (w : Window) (raw : Nat → Nat) : Nat → World → Option World
  | 0, s => some s
  | n + 1, s => (tick w raw s).bind (ticks w raw n)

/-! ## Derived definitions used by the statements -/

/-- The twelve scalars that the assignments of `quadStores` write, in index order. -/
def quadPositions (object : Object) : List Int := (quadStores 0 object).map Prod.snd

/-- The twelve scalars that the assignments of `uvStores` write, in index order. -/
def quadUVs (object : Object) : List ℚ := (uvStores 0 object).map Prod.snd

/-- Successive calls of `updateObject` on one object and one index, as the render loop makes them
tick after tick: one call for each pair of draws of the list. -/
def updateObjectTimes (w : Window) (idx : Int) :
    List (Int × Int) → Object → List Int → Option (Object × List Int)
  | [], object, vertices => some (object, vertices)
  | (rx, ry) :: rest, object, vertices =>
    (updateObject w idx rx ry object vertices).bind fun r => updateObjectTimes w idx rest r.1 r.2

/-! # Theorems -/

/-! ## Slices: what a sequence of assignments does -/

theorem store_eq_some {α : Type} {buf : List α} {k : Int} {v : α} {buf' : List α} :
    store buf k v = some buf' ↔ (0 ≤ k ∧ k < buf.length) ∧ buf' = buf.set k.toNat v := by
  unfold store
  split
  · rename_i h
    simp [h, eq_comm]
  · rename_i h
    simp [h]

theorem storeAll_length {α : Type} (ps : List (Int × α)) (buf buf' : List α)
    (h : storeAll ps buf = some buf') : buf'.length = buf.length := by
  induction ps generalizing buf with
  | nil => simp [storeAll] at h; simp [← h]
  | cons p rest ih =>
    obtain ⟨k, v⟩ := p
    simp only [storeAll, Option.bind_eq_some] at h
    obtain ⟨b1, hb1, hrest⟩ := h
    rw [ih b1 hrest, (store_eq_some.1 hb1).2, List.length_set]

theorem storeAll_inRange {α : Type} (ps : List (Int × α)) (buf buf' : List α)
    (h : storeAll ps buf = some buf') : ∀ p ∈ ps, 0 ≤ p.1 ∧ p.1 < buf.length := by
  induction ps generalizing buf with
  | nil => simp
  | cons p rest ih =>
    obtain ⟨k, v⟩ := p
    simp only [storeAll, Option.bind_eq_some] at h
    obtain ⟨b1, hb1, hrest⟩ := h
    have hk := store_eq_some.1 hb1
    intro q hq
    rcases List.mem_cons.1 hq with rfl | hq
    · exact hk.1
    · have := ih b1 hrest q hq
      rw [hk.2, List.length_set] at this
      exact this

theorem storeAll_isSome {α : Type} (ps : List (Int × α)) (buf : List α)
    (h : ∀ p ∈ ps, 0 ≤ p.1 ∧ p.1 < buf.length) : ∃ buf', storeAll ps buf = some buf' := by
  induction ps generalizing buf with
  | nil => exact ⟨buf, rfl⟩
  | cons p rest ih =>
    obtain ⟨k, v⟩ := p
    have hk := h (k, v) (List.mem_cons_self _ _)
    have hs : store buf k v = some (buf.set k.toNat v) := store_eq_some.2 ⟨hk, rfl⟩
    obtain ⟨b, hb⟩ := ih (buf.set k.toNat v) (by
      intro q hq
      rw [List.length_set]
      exact h q (List.mem_cons_of_mem _ hq))
    exact ⟨b, by simp [storeAll, hs, hb]⟩

theorem storeAll_frame {α : Type} (ps : List (Int × α)) (buf buf' : List α)
    (h : storeAll ps buf = some buf') (n : Nat) (hn : ∀ p ∈ ps, p.1 ≠ (n : Int)) :
    buf'[n]? = buf[n]? := by
  induction ps generalizing buf with
  | nil => simp [storeAll] at h; simp [← h]
  | cons p rest ih =>
    obtain ⟨k, v⟩ := p
    simp only [storeAll, Option.bind_eq_some] at h
    obtain ⟨b1, hb1, hrest⟩ := h
    have hk := store_eq_some.1 hb1
    rw [ih b1 hrest (fun q hq => hn q (List.mem_cons_of_mem _ hq)), hk.2]
    have hne : k.toNat ≠ n := by
      have := hn (k, v) (List.mem_cons_self _ _)
      simp only [ne_eq] at this
      omega
    simp [List.getElem?_set, hne]

theorem storeAll_written {α : Type} (ps : List (Int × α)) (buf buf' : List α)
    (h : storeAll ps buf = some buf') (hd : (ps.map Prod.fst).Nodup) :
    ∀ p ∈ ps, buf'[p.1.toNat]? = some p.2 := by
  induction ps generalizing buf with
  | nil => simp
  | cons p rest ih =>
    obtain ⟨k, v⟩ := p
    simp only [storeAll, Option.bind_eq_some] at h
    obtain ⟨b1, hb1, hrest⟩ := h
    have hk := store_eq_some.1 hb1
    simp only [List.map_cons, List.nodup_cons] at hd
    intro q hq
    rcases List.mem_cons.1 hq with rfl | hq
    · have hfr := storeAll_frame rest b1 buf' hrest k.toNat (by
        intro r hr hrk
        apply hd.1
        have : r.1 = k := by
          have := hk.1.1
          omega
        exact List.mem_map.2 ⟨r, hr, this⟩)
      rw [hfr, hk.2]
      have : k.toNat < buf.length := by omega
      simp [List.getElem?_set, this]
    · exact ih b1 hrest hd.2 q hq

theorem length_makeSlice {α : Type} [Zero α] (n : Nat) : (makeSlice n : List α).length = n := by
  simp [makeSlice]

theorem blockIndex_eq (idx j : Int) (h0 : 0 ≤ idx) (h1 : idx * 12 + 11 < 9223372036854775808)
    (hj : 0 ≤ j) (hj' : j < 12) : blockIndex idx j = idx * 12 + j := by
  unfold blockIndex wrapInt
  omega

theorem storeAll_block {α : Type} (ps : List (Int × α)) (buf : List α) (base : Nat)
    (hidx : ∀ j (hj : j < ps.length), (ps[j]).1 = ((base + j : Nat) : Int))
    (hlen : base + ps.length ≤ buf.length) :
    ∃ buf', storeAll ps buf = some buf' ∧ buf'.length = buf.length ∧
      ∀ m : Nat, buf'[m]? =
        if base ≤ m ∧ m < base + ps.length then (ps.map Prod.snd)[m - base]? else buf[m]? := by
  have hmem : ∀ p ∈ ps, ∃ j, ∃ hj : j < ps.length, ps[j] = p := by
    intro p hp
    obtain ⟨j, hj, hpj⟩ := List.getElem_of_mem hp
    exact ⟨j, hj, hpj⟩
  obtain ⟨buf', hb⟩ := storeAll_isSome ps buf (by
    intro p hp
    obtain ⟨j, hj, rfl⟩ := hmem p hp
    rw [hidx j hj]
    omega)
  have hmap : ps.map Prod.fst = (List.range ps.length).map (fun j => ((base + j : Nat) : Int)) := by
    apply List.ext_getElem
    · simp
    · intro j h1 h2
      simp only [List.length_map] at h1
      simp [hidx j h1]
  have hnd : (ps.map Prod.fst).Nodup := by
    rw [hmap]
    apply List.Nodup.map _ (List.nodup_range _)
    intro a b hab
    simp only at hab
    omega
  refine ⟨buf', hb, storeAll_length ps buf buf' hb, ?_⟩
  intro m
  split
  · rename_i hm
    have hj : m - base < ps.length := by omega
    have hw := storeAll_written ps buf buf' hb hnd (ps[m - base]) (List.getElem_mem _)
    rw [hidx (m - base) hj] at hw
    have e : ((base + (m - base) : Nat) : Int).toNat = m := by omega
    rw [e] at hw
    rw [hw]
    simp [hj]
  · rename_i hm
    apply storeAll_frame ps buf buf' hb
    intro p hp
    obtain ⟨j, hj, rfl⟩ := hmem p hp
    rw [hidx j hj]
    intro hc
    have : base + j = m := by exact_mod_cast hc
    omega

/-! ## The block of one object -/

/-- The initial build and `updateObject` make the same twelve assignments. -/
theorem initVertexStores_eq (i : Int) (object : Object) :
    initVertexStores i object = quadStores i object := rfl

theorem quadStores_snd (idx : Int) (object : Object) :
    (quadStores idx object).map Prod.snd = quadPositions object := by
  simp [quadStores, quadPositions]

theorem uvStores_snd (idx : Int) (object : Object) :
    (uvStores idx object).map Prod.snd = quadUVs object := by
  simp [uvStores, quadUVs]

theorem quadStores_block (i : Nat) (object : Object) (buf : List Int)
    (hlen : 12 * i + 12 ≤ buf.length) (hbig : buf.length < 9223372036854775808) :
    ∃ buf', storeAll (quadStores i object) buf = some buf' ∧ buf'.length = buf.length ∧
      ∀ m : Nat, buf'[m]? =
        if 12 * i ≤ m ∧ m < 12 * i + 12 then (quadPositions object)[m - 12 * i]? else buf[m]? := by
  have hl : (quadStores i object).length = 12 := rfl
  have key := storeAll_block (quadStores i object) buf (12 * i) (by
    intro j hj
    rw [hl] at hj
    have e : ∀ k : Int, 0 ≤ k → k < 12 → blockIndex i k = ((12 * i + k.toNat : Nat) : Int) := by
      intro k hk hk'
      rw [blockIndex_eq i k (by omega) (by omega) hk hk']
      omega
    interval_cases j <;> simp only [quadStores, List.getElem_cons_zero, List.getElem_cons_succ]
      <;> exact e _ (by decide) (by decide)) (by rw [hl]; omega)
  rw [hl, quadStores_snd] at key
  exact key

theorem uvStores_block (i : Nat) (object : Object) (buf : List ℚ)
    (hlen : 12 * i + 12 ≤ buf.length) (hbig : buf.length < 9223372036854775808) :
    ∃ buf', storeAll (uvStores i object) buf = some buf' ∧ buf'.length = buf.length ∧
      ∀ m : Nat, buf'[m]? =
        if 12 * i ≤ m ∧ m < 12 * i + 12 then (quadUVs object)[m - 12 * i]? else buf[m]? := by
  have hl : (uvStores i object).length = 12 := rfl
  have key := storeAll_block (uvStores i object) buf (12 * i) (by
    intro j hj
    rw [hl] at hj
    have e : ∀ k : Int, 0 ≤ k → k < 12 → blockIndex i k = ((12 * i + k.toNat : Nat) : Int) := by
      intro k hk hk'
      rw [blockIndex_eq i k (by omega) (by omega) hk hk']
      omega
    interval_cases j <;> simp only [uvStores, List.getElem_cons_zero, List.getElem_cons_succ]
      <;> exact e _ (by decide) (by decide)) (by rw [hl]; omega)
  rw [hl, uvStores_snd] at key
  exact key

/-! ## The initial mesh build, iteration by iteration -/

theorem buildLoop_spec (objects : List Object) (n : Nat) (v : List Int) (u : List ℚ)
    (hn : n ≤ objects.length) (hv : 12 * n ≤ v.length) (hu : 12 * n ≤ u.length)
    (hvb : v.length < 9223372036854775808) (hub : u.length < 9223372036854775808) :
    ∃ v' u', buildLoop objects n (v, u) = some (v', u') ∧
      v'.length = v.length ∧ u'.length = u.length ∧
      (∀ i j : Nat, i < n → j < 12 →
        v'[12 * i + j]? = (objects[i]?.bind fun o => (quadPositions o)[j]?)) ∧
      (∀ m : Nat, 12 * n ≤ m → v'[m]? = v[m]?) ∧
      (∀ i j : Nat, i < n → j < 12 →
        u'[12 * i + j]? = (objects[i]?.bind fun o => (quadUVs o)[j]?)) ∧
      (∀ m : Nat, 12 * n ≤ m → u'[m]? = u[m]?) := by
  induction n with
  | zero => exact ⟨v, u, rfl, rfl, rfl, by simp, by simp, by simp, by simp⟩
  | succ n ih =>
    obtain ⟨v1, u1, hloop, hlv, hlu, hvq, hvr, huq, hur⟩ := ih (by omega) (by omega) (by omega)
    have hobj : objects[n]? = some objects[n] := List.getElem?_eq_getElem (by omega)
    obtain ⟨v2, hv2, hlv2, hvm⟩ := quadStores_block n objects[n] v1 (by omega) (by omega)
    obtain ⟨u2, hu2, hlu2, hum⟩ := uvStores_block n objects[n] u1 (by omega) (by omega)
    refine ⟨v2, u2, ?_, by omega, by omega, ?_, ?_, ?_, ?_⟩
    · rw [buildLoop, hloop, Option.some_bind, buildStep, hobj, Option.some_bind,
        initVertexStores_eq]
      rw [hv2, Option.some_bind, hu2, Option.map_some']
    · intro i j hi hj
      rw [hvm]
      by_cases hin : i = n
      · subst hin
        have : 12 * i + j - 12 * i = j := by omega
        simp [hobj, this, hj]
      · have : ¬ (12 * n ≤ 12 * i + j ∧ 12 * i + j < 12 * n + 12) := by omega
        rw [if_neg this]
        exact hvq i j (by omega) hj
    · intro m hm
      rw [hvm, if_neg (by omega)]
      exact hvr m (by omega)
    · intro i j hi hj
      rw [hum]
      by_cases hin : i = n
      · subst hin
        have : 12 * i + j - 12 * i = j := by omega
        simp [hobj, this, hj]
      · have : ¬ (12 * n ≤ 12 * i + j ∧ 12 * i + j < 12 * n + 12) := by omega
        rw [if_neg this]
        exact huq i j (by omega) hj
    · intro m hm
      rw [hum, if_neg (by omega)]
      exact hur m (by omega)

/-- A slice whose block `i` holds the twelve given scalars has them as its block `i`. -/
theorem block_eq_of_getElem? {α : Type} (buf : List α) (i : Nat) (vals : List α)
    (hl : vals.length = 12) (h : ∀ j : Nat, j < 12 → buf[12 * i + j]? = vals[j]?) :
    (buf.drop (i * 12)).take 12 = vals := by
  apply List.ext_getElem?
  intro j
  by_cases hj : j < 12
  · rw [List.getElem?_take_of_lt hj, List.getElem?_drop, ← h j hj]
    congr 1
    omega
  · rw [List.getElem?_eq_none (by simp; omega), List.getElem?_eq_none (by omega)]

/-! ## The simulation tick, iteration by iteration -/

theorem intn_five (raw : Nat → Nat) (c : Nat) : intn raw c 5 = some ((raw c : Int) % 5) := by
  simp [intn]

theorem updateObject_inRange (w : Window) (i : Nat) (rx ry : Int) (object : Object)
    (vertices : List Int) (hlen : 12 * i + 12 ≤ vertices.length)
    (hbig : vertices.length < 9223372036854775808) :
    ∃ v', updateObject w i rx ry object vertices = some (moveObject w rx ry object, v') ∧
      v'.length = vertices.length ∧
      ∀ m : Nat, v'[m]? =
        if 12 * i ≤ m ∧ m < 12 * i + 12 then
          (quadPositions (moveObject w rx ry object))[m - 12 * i]?
        else vertices[m]? := by
  obtain ⟨v', hv', hl, hm⟩ := quadStores_block i (moveObject w rx ry object) vertices hlen hbig
  refine ⟨v', ?_, hl, hm⟩
  rw [updateObject, hv', Option.map_some']

theorem tickLoop_spec (w : Window) (raw : Nat → Nat) (n : Nat) (s : World)
    (hn : n ≤ s.objects.length) (hv : 12 * n ≤ s.vertices.length)
    (hvb : s.vertices.length < 9223372036854775808) :
    ∃ s', tickLoop w raw n s = some s' ∧
      s'.objects.length = s.objects.length ∧ s'.vertices.length = s.vertices.length ∧
      s'.uvs = s.uvs ∧ s'.cursor = s.cursor + 2 * n ∧
      (∀ i : Nat, i < n → s'.objects[i]? = s.objects[i]?.map
        (moveObject w ((raw (s.cursor + 2 * i) : Int) % 5) ((raw (s.cursor + 2 * i + 1) : Int) % 5))) ∧
      (∀ i : Nat, n ≤ i → s'.objects[i]? = s.objects[i]?) ∧
      (∀ i j : Nat, i < n → j < 12 →
        s'.vertices[12 * i + j]? = (s'.objects[i]?.bind fun o => (quadPositions o)[j]?)) ∧
      (∀ m : Nat, 12 * n ≤ m → s'.vertices[m]? = s.vertices[m]?) := by
  induction n with
  | zero => exact ⟨s, rfl, rfl, rfl, rfl, rfl, by simp, by simp, by simp, by simp⟩
  | succ n ih =>
    obtain ⟨s1, hloop, hlo, hlv, huv, hc, hmv, hor, hvq, hvr⟩ := ih (by omega) (by omega)
    obtain ⟨o1, hobj⟩ : ∃ o, s1.objects[n]? = some o :=
      ⟨_, List.getElem?_eq_getElem (by omega)⟩
    have hobj0 : s.objects[n]? = some o1 := by rw [← hor n (le_refl n)]; exact hobj
    obtain ⟨v2, hv2, hlv2, hvm⟩ := updateObject_inRange w n ((raw s1.cursor : Int) % 5)
      ((raw (s1.cursor + 1) : Int) % 5) o1 s1.vertices (by omega) (by omega)
    refine ⟨{ s1 with
        objects := s1.objects.set n (moveObject w ((raw s1.cursor : Int) % 5)
          ((raw (s1.cursor + 1) : Int) % 5) o1),
        vertices := v2, cursor := s1.cursor + 2 }, ?_, ?_, ?_, ?_, ?_, ?_, ?_, ?_, ?_⟩
    · rw [tickLoop, hloop, Option.some_bind, tickStep, hobj, Option.some_bind, intn_five,
        Option.some_bind, intn_five, Option.some_bind, hv2, Option.map_some']
    · simp [hlo]
    · simp [hlv2, hlv]
    · simp [huv]
    · simp only [hc]; omega
    · intro i hi
      simp only [List.getElem?_set]
      by_cases hin : n = i
      · subst hin
        have : n < s1.objects.length := by omega
        simp only [if_true, this, hobj0, Option.map_some', hc]
      · simp only [if_neg hin]
        exact hmv i (by omega)
    · intro i hi
      simp only [List.getElem?_set]
      rw [if_neg (by omega)]
      exact hor i (by omega)
    · intro i j hi hj
      simp only [List.getElem?_set]
      rw [hvm]
      by_cases hin : n = i
      · subst hin
        have h1 : n < s1.objects.length := by omega
        have h2 : 12 * n + j - 12 * n = j := by omega
        have h3 : 12 * n ≤ 12 * n + j ∧ 12 * n + j < 12 * n + 12 := by omega
        simp only [if_true, h1, h2, h3, and_self, Option.some_bind]
      · have : ¬ (12 * n ≤ 12 * i + j ∧ 12 * i + j < 12 * n + 12) := by omega
        rw [if_neg this, if_neg hin]
        exact hvq i j (by omega) hj
    · intro m hm
      simp only []
      rw [hvm, if_neg (by omega)]
      exact hvr m (by omega)

/-! ## The motion step -/

theorem updateObject_eq_some {w : Window} {idx rx ry : Int} {object : Object}
    {vertices : List Int} {o' : Object} {v' : List Int} :
    updateObject w idx rx ry object vertices = some (o', v') ↔
      o' = moveObject w rx ry object ∧ storeAll (quadStores idx o') vertices = some v' := by
  unfold updateObject
  constructor
  · intro h
    simp only [Option.map_eq_some'] at h
    obtain ⟨b, hb, he⟩ := h
    simp only [Prod.mk.injEq] at he
    obtain ⟨h1, h2⟩ := he
    subst h1 h2
    exact ⟨rfl, hb⟩
  · rintro ⟨rfl, h⟩
    simp only [h, Option.map_some']

theorem moveObject_texture (w : Window) (rx ry : Int) (object : Object) :
    (moveObject w rx ry object).texture = object.texture := rfl

/-- The clamp of `moveObject` when the upper bounds fit in `int16`. -/
theorem moveObject_clamped (w : Window) (rx ry : Int) (object : Object)
    (hw : 10 + object.texture.width ≤ w.width) (hw16 : w.width - 5 - object.texture.width ≤ 32767)
    (hh : 10 + object.texture.height ≤ w.height)
    (hh16 : w.height - 5 - object.texture.height ≤ 32767) :
    5 ≤ (moveObject w rx ry object).x ∧
      (moveObject w rx ry object).x ≤ w.width - 5 - object.texture.width ∧
      5 ≤ (moveObject w rx ry object).y ∧
      (moveObject w rx ry object).y ≤ w.height - 5 - object.texture.height := by
  simp only [moveObject, toInt16, wrapInt]
  refine ⟨?_, ?_, ?_, ?_⟩ <;> split_ifs <;> omega

theorem updateObjectTimes_last (w : Window) (idx : Int) (draws : List (Int × Int))
    (object : Object) (vertices : List Int) (o' : Object) (v' : List Int) (hd : draws ≠ [])
    (hrun : updateObjectTimes w idx draws object vertices = some (o', v')) :
    ∃ rx ry o, o.texture = object.texture ∧ o' = moveObject w rx ry o := by
  induction draws generalizing object vertices with
  | nil => exact absurd rfl hd
  | cons p rest ih =>
    obtain ⟨rx, ry⟩ := p
    simp only [updateObjectTimes, Option.bind_eq_some] at hrun
    obtain ⟨⟨o1, v1⟩, h1, hrest⟩ := hrun
    have ho1 := (updateObject_eq_some.1 h1).1
    cases rest with
    | nil =>
      simp only [updateObjectTimes, Option.some.injEq, Prod.mk.injEq] at hrest
      exact ⟨rx, ry, object, rfl, by rw [← hrest.1, ho1]⟩
    | cons q rest =>
      obtain ⟨rx2, ry2, o, hot, ho⟩ := ih o1 v1 (by simp) hrest
      exact ⟨rx2, ry2, o, by rw [hot, ho1, moveObject_texture], ho⟩

theorem updateObjectTimes_isSome (w : Window) (i : Nat) (draws : List (Int × Int))
    (object : Object) (vertices : List Int) (hlen : 12 * i + 12 ≤ vertices.length)
    (hbig : vertices.length < 9223372036854775808) :
    ∃ r, updateObjectTimes w i draws object vertices = some r := by
  induction draws generalizing object vertices with
  | nil => exact ⟨_, rfl⟩
  | cons p rest ih =>
    obtain ⟨rx, ry⟩ := p
    obtain ⟨v1, h1, hl, -⟩ := updateObject_inRange w i rx ry object vertices hlen hbig
    obtain ⟨r, hr⟩ := ih (moveObject w rx ry object) v1 (by omega) (by omega)
    exact ⟨r, by rw [updateObjectTimes, h1, Option.some_bind]; exact hr⟩

/-- Where the truncation of lines 432-433 and 440-441 loses nothing (`10 + region.width ≤ width`,
`width - 5 - region.width ≤ 32767`, and the same for the height), after one call of
`updateObject`, and after any number of calls at least one, whatever the draws, the start position
and the region, the object has `5 ≤ x ≤ width - 5 - region.width` and
`5 ≤ y ≤ height - 5 - region.height`; and the calls the render loop makes (an index below
`ObjectCount`, a buffer of `ObjectCount * 12` scalars) do return. -/
theorem updateObject_bounds (w : Window) (idx : Int) (draws : List (Int × Int))
    (object : Object) (vertices : List Int)
    (hw : 10 + object.texture.width ≤ w.width) (hw16 : w.width - 5 - object.texture.width ≤ 32767)
    (hh : 10 + object.texture.height ≤ w.height)
    (hh16 : w.height - 5 - object.texture.height ≤ 32767) (hd : draws ≠ []) :
    (∀ o' v', updateObjectTimes w idx draws object vertices = some (o', v') →
      5 ≤ o'.x ∧ o'.x ≤ w.width - 5 - object.texture.width ∧
      5 ≤ o'.y ∧ o'.y ≤ w.height - 5 - object.texture.height) ∧
    (0 ≤ idx → idx < ObjectCount → vertices.length = ObjectCount * 12 →
      ∃ r, updateObjectTimes w idx draws object vertices = some r) := by
  constructor
  · intro o' v' hrun
    obtain ⟨rx, ry, o, hot, rfl⟩ := updateObjectTimes_last w idx draws object vertices o' v' hd hrun
    rw [← hot] at hw hw16 hh hh16 ⊢
    exact moveObject_clamped w rx ry o hw hw16 hh hh16
  · intro h0 h1 hl
    obtain ⟨i, rfl⟩ := Int.eq_ofNat_of_zero_le h0
    have hi : i < 500 := by simpa [ObjectCount] using h1
    simp only [ObjectCount] at hl
    exact updateObjectTimes_isSome w i draws object vertices (by omega) (by omega)

/-- An instance of `updateObject_bounds`: in the default 1440 x 810 window, a watermelon at the corner
`(32767, -32768)` of the `int16` range, moved by `(+2, -2)` and then by `(0, 0)`. -/
theorem updateObject_bounds_witness :
    (10 + watermelon.width ≤ (1440 : Int) ∧ (1440 : Int) - 5 - watermelon.width ≤ 32767 ∧
      10 + watermelon.height ≤ (810 : Int) ∧ (810 : Int) - 5 - watermelon.height ≤ 32767) ∧
    ∃ o' v', updateObjectTimes ⟨"OpenGL Go Sprite Example", 1440, 810⟩ 0 [(4, 0), (2, 2)]
        ⟨32767, -32768, watermelon⟩ (makeSlice (ObjectCount * 12)) = some (o', v') ∧
      5 ≤ o'.x ∧ o'.x ≤ 1440 - 5 - watermelon.width ∧
      5 ≤ o'.y ∧ o'.y ≤ 810 - 5 - watermelon.height := by
  have h := updateObject_bounds ⟨"OpenGL Go Sprite Example", 1440, 810⟩ 0 [(4, 0), (2, 2)]
    ⟨32767, -32768, watermelon⟩ (makeSlice (ObjectCount * 12))
    (by decide) (by decide) (by decide) (by decide) (by simp)
  obtain ⟨⟨o', v'⟩, hr⟩ := h.2 (by decide) (by decide) (length_makeSlice _)
  exact ⟨by decide, o', v', hr, h.1 o' v' hr⟩

theorem quadPositions_eq (object : Object)
    (hx : -32768 ≤ object.x + object.texture.width ∧ object.x + object.texture.width ≤ 32767)
    (hy : -32768 ≤ object.y + object.texture.height ∧ object.y + object.texture.height ≤ 32767) :
    quadPositions object =
      [object.x + object.texture.width, object.y,
       object.x + object.texture.width, object.y + object.texture.height,
       object.x, object.y,
       object.x + object.texture.width, object.y + object.texture.height,
       object.x, object.y + object.texture.height,
       object.x, object.y] := by
  have ex : toInt16 (object.x + toInt16 object.texture.width) =
      object.x + object.texture.width := by
    unfold toInt16; omega
  have ey : toInt16 (object.y + toInt16 object.texture.height) =
      object.y + object.texture.height := by
    unfold toInt16; omega
  simp only [quadPositions, quadStores, List.map_cons, List.map_nil, ex, ey]

theorem buildMesh_blocks (objects : List Object) (hlen : objects.length = ObjectCount) :
    ∃ vertices uvs, buildMesh objects = some (vertices, uvs) ∧
      vertices.length = ObjectCount * 12 ∧ uvs.length = ObjectCount * 12 ∧
      ∀ (i : Nat) (object : Object), objects[i]? = some object →
        (vertices.drop (i * 12)).take 12 = quadPositions object ∧
        (uvs.drop (i * 12)).take 12 = quadUVs object := by
  obtain ⟨v, u, hb, hlv, hlu, hvq, -, huq, -⟩ := buildLoop_spec objects ObjectCount
    (makeSlice (ObjectCount * 12)) (makeSlice (ObjectCount * 12)) (by omega)
    (by rw [length_makeSlice]; omega) (by rw [length_makeSlice]; omega)
    (by rw [length_makeSlice]; decide) (by rw [length_makeSlice]; decide)
  rw [length_makeSlice] at hlv hlu
  refine ⟨v, u, hb, hlv, hlu, ?_⟩
  intro i object hobj
  have hi : i < ObjectCount := by
    rw [← hlen]
    exact (List.getElem?_eq_some.1 hobj).1
  constructor
  · apply block_eq_of_getElem? v i (quadPositions object) rfl
    intro j hj
    rw [hvq i j hi hj, hobj, Option.some_bind]
  · apply block_eq_of_getElem? u i (quadUVs object) rfl
    intro j hj
    rw [huq i j hi hj, hobj, Option.some_bind]

/-- C2: for a store of `ObjectCount` objects and every object `objects[i]` whose `x + width` and
`y + height` are representable in `int16`, the initial mesh build returns buffers whose block
`[i*12 .. i*12+11]` holds the positions `(x+w,y),(x+w,y+h),(x,y),(x+w,y+h),(x,y+h),(x,y)` and the
UVs `(u2,v2),(u2,v1),(u1,v2),(u2,v1),(u1,v1),(u1,v2)`, in that order. -/
theorem buildMesh_quad (objects : List Object) (i : Nat) (object : Object)
    (hlen : objects.length = ObjectCount) (hobj : objects[i]? = some object)
    (hx : -32768 ≤ object.x + object.texture.width ∧ object.x + object.texture.width ≤ 32767)
    (hy : -32768 ≤ object.y + object.texture.height ∧ object.y + object.texture.height ≤ 32767) :
    ∃ vertices uvs, buildMesh objects = some (vertices, uvs) ∧
      (vertices.drop (i * 12)).take 12 =
        [object.x + object.texture.width, object.y,
         object.x + object.texture.width, object.y + object.texture.height,
         object.x, object.y,
         object.x + object.texture.width, object.y + object.texture.height,
         object.x, object.y + object.texture.height,
         object.x, object.y] ∧
      (uvs.drop (i * 12)).take 12 =
        [object.texture.u2, object.texture.v2, object.texture.u2, object.texture.v1,
         object.texture.u1, object.texture.v2, object.texture.u2, object.texture.v1,
         object.texture.u1, object.texture.v1, object.texture.u1, object.texture.v2] := by
  obtain ⟨v, u, hb, -, -, hblocks⟩ := buildMesh_blocks objects hlen
  obtain ⟨hv, hu⟩ := hblocks i object hobj
  refine ⟨v, u, hb, ?_, ?_⟩
  · rw [hv, quadPositions_eq object hx hy]
  · rw [hu]
    simp only [quadUVs, uvStores, List.map_cons, List.map_nil]

/-- Witness of `buildMesh_quad`, the scenario of the specification: the region
`{64,64,0,0,0.5,0.5}` at `(10,20)`, as object 7 of a store of such objects. -/
theorem buildMesh_quad_witness :
    ∃ vertices uvs,
      buildMesh (List.replicate ObjectCount ⟨10, 20, watermelon⟩) = some (vertices, uvs) ∧
      (vertices.drop (7 * 12)).take 12 = [74, 20, 74, 84, 10, 20, 74, 84, 10, 84, 10, 20] ∧
      (uvs.drop (7 * 12)).take 12 = [1/2, 1/2, 1/2, 0, 0, 1/2, 1/2, 0, 0, 0, 0, 1/2] := by
  obtain ⟨v, u, hb, hv, hu⟩ := buildMesh_quad (List.replicate ObjectCount ⟨10, 20, watermelon⟩) 7
    ⟨10, 20, watermelon⟩ (List.length_replicate _ _)
    (by rw [List.getElem?_replicate, if_pos (by decide)]) (by decide) (by decide)
  exact ⟨v, u, hb, hv, hu⟩

/-! ## Catalog sampling -/

theorem intn_range (raw : Nat → Nat) (c : Nat) (n r : Int) (h : intn raw c n = some r) :
    0 ≤ r ∧ r < n := by
  unfold intn at h
  split at h
  · exact absurd h (by simp)
  · rename_i hn
    simp only [Option.some.injEq] at h
    subst h
    exact ⟨Int.emod_nonneg _ (by omega), Int.emod_lt_of_pos _ (by omega)⟩

theorem texIndex_bound : wrapInt ((possibleTextures.length : Int) - 1) = 8 := by decide

theorem newObject_of_lt (r rx ry : Int) (h0 : 0 ≤ r) (h1 : r < 8) :
    ∃ t, possibleTextures[r.toNat]? = some t ∧ t ∈ possibleTextures.take 8 ∧
      newObject r rx ry = some ⟨toInt16 rx, toInt16 ry, t⟩ := by
  have hmem : ∀ k : Nat, k < 8 → ∃ t, possibleTextures[k]? = some t ∧
      t ∈ possibleTextures.take 8 := by
    intro k hk
    interval_cases k <;> exact ⟨_, rfl, by simp [possibleTextures]⟩
  obtain ⟨k, rfl⟩ := Int.eq_ofNat_of_zero_le h0
  obtain ⟨t, ht, htm⟩ := hmem k (by omega)
  refine ⟨t, by simpa using ht, htm, ?_⟩
  simp [newObject, index, ht]

theorem ne_raspberry_of_mem_take (t : Texture) (ht : t ∈ possibleTextures.take 8) :
    t ≠ raspberry := by
  simp only [possibleTextures, List.take_succ_cons, List.take_zero, List.mem_cons,
    List.mem_singleton, List.not_mem_nil, or_false] at ht
  rcases ht with rfl | rfl | rfl | rfl | rfl | rfl | rfl | rfl <;>
    · intro h
      simp only [watermelon, pineapple, orange, grapes, pear, banana, strawberry, cherries,
        raspberry, Texture.mk.injEq] at h
      norm_num at h

/-! ## Ticks -/

theorem tick_spec (w : Window) (raw : Nat → Nat) (s : World)
    (hobj : s.objects.length = ObjectCount) (hv : s.vertices.length = ObjectCount * 12) :
    ∃ s', tick w raw s = some s' ∧
      s'.objects.length = ObjectCount ∧ s'.vertices.length = ObjectCount * 12 ∧
      s'.uvs = s.uvs ∧ s'.cursor = s.cursor + 2 * ObjectCount ∧
      (∀ i : Nat, i < ObjectCount → s'.objects[i]? = s.objects[i]?.map
        (moveObject w ((raw (s.cursor + 2 * i) : Int) % 5) ((raw (s.cursor + 2 * i + 1) : Int) % 5))) ∧
      (∀ i j : Nat, i < ObjectCount → j < 12 →
        s'.vertices[12 * i + j]? = (s'.objects[i]?.bind fun o => (quadPositions o)[j]?)) := by
  have h500 : ObjectCount = 500 := rfl
  obtain ⟨s', hs', hlo, hlv, huv, hc, hmv, -, hvq, -⟩ := tickLoop_spec w raw ObjectCount s
    (by omega) (by omega) (by omega)
  exact ⟨s', hs', by omega, by omega, huv, hc, hmv, hvq⟩

theorem ticks_spec (w : Window) (raw : Nat → Nat) (n : Nat) (s : World)
    (hobj : s.objects.length = ObjectCount) (hv : s.vertices.length = ObjectCount * 12) :
    ∃ s', ticks w raw n s = some s' ∧
      s'.objects.length = ObjectCount ∧ s'.vertices.length = ObjectCount * 12 ∧
      s'.uvs = s.uvs ∧ s'.cursor = s.cursor + n * (2 * ObjectCount) := by
  induction n generalizing s with
  | zero => exact ⟨s, rfl, hobj, hv, rfl, by simp⟩
  | succ n ih =>
    obtain ⟨s1, h1, hlo, hlv, huv, hc, -, -⟩ := tick_spec w raw s hobj hv
    obtain ⟨s2, h2, hlo2, hlv2, huv2, hc2⟩ := ih s1 hlo hlv
    refine ⟨s2, ?_, hlo2, hlv2, by rw [huv2, huv], ?_⟩
    · rw [ticks, h1, Option.some_bind, h2]
    · rw [hc2, hc]; ring

/-! ## `NewWindow` -/

/-- C5: `NewWindow` fails if and only if the configuration is nil: for nil it returns the error
"window missing config", and for every other configuration, whatever its fields, it returns a
window with the configuration's title, width and height. -/
theorem NewWindow_spec :
    NewWindow none = .error "window missing config" ∧
    (∀ cfg : WindowConfig, NewWindow (some cfg) =
      .ok { title := cfg.Title, width := cfg.Width, height := cfg.Height }) ∧
    (∀ cfg : Option WindowConfig, (∃ e, NewWindow cfg = .error e) ↔ cfg = none) := by
  refine ⟨rfl, fun _ => rfl, ?_⟩
  intro cfg
  cases cfg with
  | none => simp [NewWindow]
  | some c => simp [NewWindow]

/-! ## The frame of the motion step -/

/-- C6: whatever the index, the draws, the object and the position buffer, a call of
`updateObject` that returns leaves `object.texture` unchanged, hence the twelve UV scalars built
from the object, keeps the length of the position buffer and changes no entry of it outside the
indices `idx*12 + j`, `0 ≤ j < 12`, of the object's block; and the calls the render loop makes
(an index below `ObjectCount`, a buffer of `ObjectCount * 12` scalars) do return. -/
theorem updateObject_frame (w : Window) (idx rx ry : Int) (object : Object)
    (vertices : List Int) :
    (∀ o' v', updateObject w idx rx ry object vertices = some (o', v') →
      o'.texture = object.texture ∧ quadUVs o' = quadUVs object ∧
      v'.length = vertices.length ∧
      ∀ k : Nat, (∀ j : Int, 0 ≤ j → j < 12 → (k : Int) ≠ blockIndex idx j) →
        v'[k]? = vertices[k]?) ∧
    (0 ≤ idx → idx < ObjectCount → vertices.length = ObjectCount * 12 →
      ∃ r, updateObject w idx rx ry object vertices = some r) := by
  constructor
  · intro o' v' h
    obtain ⟨rfl, hst⟩ := updateObject_eq_some.1 h
    refine ⟨rfl, rfl, storeAll_length _ _ _ hst, ?_⟩
    intro k hk
    apply storeAll_frame _ _ _ hst
    intro p hp
    simp only [quadStores, List.mem_cons, List.mem_singleton, List.not_mem_nil, or_false] at hp
    rcases hp with rfl | rfl | rfl | rfl | rfl | rfl | rfl | rfl | rfl | rfl | rfl | rfl <;>
      exact fun hc => hk _ (by decide) (by decide) hc.symm
  · intro h0 h1 hl
    obtain ⟨i, rfl⟩ := Int.eq_ofNat_of_zero_le h0
    have hi : i < 500 := by simpa [ObjectCount] using h1
    simp only [ObjectCount] at hl
    obtain ⟨v', hv', -, -⟩ := updateObject_inRange w i rx ry object vertices (by omega) (by omega)
    exact ⟨_, hv'⟩

/-- Witness of `updateObject_frame`: object 1 of a buffer of two blocks; block 0 keeps its
content and the texture is the watermelon before and after. -/
theorem updateObject_frame_witness :
    updateObject ⟨"OpenGL Go Sprite Example", 1440, 810⟩ 1 4 0 ⟨32767, -32768, watermelon⟩
        [1, 2, 3, 4, 5, 6, 7, 8, 9, 10, 11, 12, 0, 0, 0, 0, 0, 0, 0, 0, 0, 0, 0, 0] =
      some (⟨5, 741, watermelon⟩,
        [1, 2, 3, 4, 5, 6, 7, 8, 9, 10, 11, 12,
          69, 741, 69, 805, 5, 741, 69, 805, 5, 805, 5, 741]) ∧
    (⟨5, 741, watermelon⟩ : Object).texture = watermelon ∧
    ([1, 2, 3, 4, 5, 6, 7, 8, 9, 10, 11, 12,
      69, 741, 69, 805, 5, 741, 69, 805, 5, 805, 5, 741] : List Int)[3]? = some 4 := by
  have hrun : updateObject ⟨"OpenGL Go Sprite Example", 1440, 810⟩ 1 4 0
      ⟨32767, -32768, watermelon⟩
      [1, 2, 3, 4, 5, 6, 7, 8, 9, 10, 11, 12, 0, 0, 0, 0, 0, 0, 0, 0, 0, 0, 0, 0] =
      some (⟨5, 741, watermelon⟩,
        [1, 2, 3, 4, 5, 6, 7, 8, 9, 10, 11, 12,
          69, 741, 69, 805, 5, 741, 69, 805, 5, 805, 5, 741]) := rfl
  obtain ⟨ht, -, -, hk⟩ := (updateObject_frame ⟨"OpenGL Go Sprite Example", 1440, 810⟩ 1 4 0
    ⟨32767, -32768, watermelon⟩
    [1, 2, 3, 4, 5, 6, 7, 8, 9, 10, 11, 12, 0, 0, 0, 0, 0, 0, 0, 0, 0, 0, 0, 0]).1 _ _ hrun
  refine ⟨hrun, ht, ?_⟩
  rw [hk 3 (by
    intro j h0 h1
    have : blockIndex 1 j = 12 + j := by rw [blockIndex_eq 1 j (by decide) (by decide) h0 h1]; ring
    rw [this]
    push_cast
    omega)]
  rfl

/-! ## Buffer byte lengths -/

/-- C10, the code at its only input: on a 64-bit target `sizeOfVertices` is 12024 and
`sizeOfUvs` is 24024, each 24 bytes (the slice header) more than the `ObjectCount * 12` elements
of the buffer take, 12000 and 24000 bytes. -/
theorem sizeOf_buffers :
    sizeOfVertices = 12024 ∧ sizeOfUvs = 24024 ∧
    (makeSlice (ObjectCount * 12) : List Int).length * sizeOfInt16 = 12000 ∧
    (makeSlice (ObjectCount * 12) : List ℚ).length * sizeOfFloat32 = 24000 ∧
    sizeOfVertices ≠ ObjectCount * 12 * sizeOfInt16 ∧
    sizeOfUvs ≠ ObjectCount * 12 * sizeOfFloat32 := by
  refine ⟨by decide, by decide, ?_, ?_, by decide, by decide⟩
  · rw [length_makeSlice]; decide
  · rw [length_makeSlice]; decide

/-! ## Buffer and store sizes -/

theorem initStep_length (w : Window) (raw : Nat → Nat) (s r : List Object × Nat)
    (h : initStep w raw s = some r) : r.1.length = s.1.length + 1 := by
  simp only [initStep, Option.bind_eq_some, Option.map_eq_some'] at h
  obtain ⟨_, _, _, _, _, _, o, _, rfl⟩ := h
  simp

theorem initStep_isSome (w : Window) (raw : Nat → Nat) (s : List Object × Nat)
    (hw : 0 < w.width) (hh : 0 < w.height) : ∃ r, initStep w raw s = some r := by
  have h8 : intn raw s.2 (wrapInt ((possibleTextures.length : Int) - 1)) =
      some ((raw s.2 : Int) % 8) := by
    rw [texIndex_bound]; simp [intn]
  have hx : intn raw (s.2 + 1) w.width = some ((raw (s.2 + 1) : Int) % w.width) := by
    simp [intn, hw]
  have hy : intn raw (s.2 + 2) w.height = some ((raw (s.2 + 2) : Int) % w.height) := by
    simp [intn, hh]
  obtain ⟨t, -, -, hn⟩ := newObject_of_lt ((raw s.2 : Int) % 8)
    ((raw (s.2 + 1) : Int) % w.width) ((raw (s.2 + 2) : Int) % w.height)
    (Int.emod_nonneg _ (by decide)) (Int.emod_lt_of_pos _ (by decide))
  exact ⟨_, by rw [initStep, h8, Option.some_bind, hx, Option.some_bind, hy, Option.some_bind,
    hn, Option.map_some']⟩

theorem initLoop_length (w : Window) (raw : Nat → Nat) (n : Nat) (s r : List Object × Nat)
    (h : initLoop w raw n s = some r) : r.1.length = s.1.length + n := by
  induction n generalizing r with
  | zero =>
    simp only [initLoop, Option.some.injEq] at h
    simp [← h]
  | succ n ih =>
    simp only [initLoop, Option.bind_eq_some] at h
    obtain ⟨r1, h1, h2⟩ := h
    rw [initStep_length w raw r1 r h2, ih r1 h1]
    omega

theorem initLoop_isSome (w : Window) (raw : Nat → Nat) (n : Nat) (s : List Object × Nat)
    (hw : 0 < w.width) (hh : 0 < w.height) : ∃ r, initLoop w raw n s = some r := by
  induction n with
  | zero => exact ⟨s, rfl⟩
  | succ n ih =>
    obtain ⟨r1, h1⟩ := ih
    obtain ⟨r, hr⟩ := initStep_isSome w raw r1 hw hh
    exact ⟨r, by rw [initLoop, h1, Option.some_bind, hr]⟩

/-- C7: the position buffer and the UV buffer are created with `ObjectCount * 12` scalars, twice
the vertex count `ObjectCount * 6` of the draw call; the object store built by the creation loop
has `ObjectCount` objects (and the loop returns for a window of positive size); the initial build
keeps both lengths; for every `idx` with `0 ≤ idx < ObjectCount` the twelve indices written by
`updateObject` are in bounds, the call returns and keeps the buffer's length; so after any
number of ticks the store has `ObjectCount` objects and both buffers `ObjectCount * 12`
scalars. -/
theorem vertex_count_invariant :
    (makeSlice (ObjectCount * 12) : List Int).length = ObjectCount * 12 ∧
    (makeSlice (ObjectCount * 12) : List ℚ).length = ObjectCount * 12 ∧
    ObjectCount * 12 = 2 * drawCount ∧ drawCount = ObjectCount * 6 ∧
    (∀ (w : Window) (raw : Nat → Nat) (r : List Object × Nat),
      initObjects w raw = some r → r.1.length = ObjectCount) ∧
    (∀ (w : Window) (raw : Nat → Nat), 0 < w.width → 0 < w.height →
      ∃ r, initObjects w raw = some r) ∧
    (∀ objects : List Object, objects.length = ObjectCount →
      ∃ vertices uvs, buildMesh objects = some (vertices, uvs) ∧
        vertices.length = ObjectCount * 12 ∧ uvs.length = ObjectCount * 12) ∧
    (∀ (w : Window) (idx rx ry : Int) (object : Object) (vertices : List Int),
      0 ≤ idx → idx < ObjectCount → vertices.length = ObjectCount * 12 →
      (∀ j : Int, 0 ≤ j → j < 12 →
        0 ≤ blockIndex idx j ∧ blockIndex idx j < vertices.length) ∧
      ∃ o' v', updateObject w idx rx ry object vertices = some (o', v') ∧
        v'.length = ObjectCount * 12) ∧
    (∀ (w : Window) (raw : Nat → Nat) (n : Nat) (s : World),
      s.objects.length = ObjectCount → s.vertices.length = ObjectCount * 12 →
      s.uvs.length = ObjectCount * 12 →
      ∃ s', ticks w raw n s = some s' ∧ s'.objects.length = ObjectCount ∧
        s'.vertices.length = ObjectCount * 12 ∧ s'.uvs.length = ObjectCount * 12) := by
  refine ⟨length_makeSlice _, length_makeSlice _, by decide, rfl, ?_, ?_, ?_, ?_, ?_⟩
  · intro w raw r h
    have := initLoop_length w raw ObjectCount ([], 0) r h
    simpa using this
  · intro w raw hw hh
    exact initLoop_isSome w raw ObjectCount ([], 0) hw hh
  · intro objects hlen
    obtain ⟨v, u, hb, hlv, hlu, -⟩ := buildMesh_blocks objects hlen
    exact ⟨v, u, hb, hlv, hlu⟩
  · intro w idx rx ry object vertices h0 h1 hl
    obtain ⟨i, rfl⟩ := Int.eq_ofNat_of_zero_le h0
    have hi : i < 500 := by simpa [ObjectCount] using h1
    have h500 : ObjectCount = 500 := rfl
    constructor
    · intro j hj0 hj1
      rw [blockIndex_eq i j (by omega) (by omega) hj0 hj1, hl, h500]
      push_cast
      omega
    · obtain ⟨v', hv', hlv, -⟩ := updateObject_inRange w i rx ry object vertices
        (by omega) (by omega)
      exact ⟨_, v', hv', by omega⟩
  · intro w raw n s ho hv hu
    obtain ⟨s', hs', hlo, hlv, huv, -⟩ := ticks_spec w raw n s ho hv
    exact ⟨s', hs', hlo, hlv, by rw [huv, hu]⟩

/-- Witness of `vertex_count_invariant`: in the default window the creation loop returns a store
of `ObjectCount` objects, and `updateObject` on the last index 499 returns a buffer of
`ObjectCount * 12` scalars. -/
theorem vertex_count_invariant_witness :
    (∃ r, initObjects ⟨"OpenGL Go Sprite Example", 1440, 810⟩ (fun n => n) = some r ∧
      r.1.length = ObjectCount) ∧
    (∃ o' v', updateObject ⟨"OpenGL Go Sprite Example", 1440, 810⟩ 499 2 2
        ⟨10, 20, watermelon⟩ (makeSlice (ObjectCount * 12)) = some (o', v') ∧
      v'.length = ObjectCount * 12) := by
  obtain ⟨-, -, -, -, hlen, hsome, -, hupd, -⟩ := vertex_count_invariant
  obtain ⟨r, hr⟩ := hsome ⟨"OpenGL Go Sprite Example", 1440, 810⟩ (fun n => n)
    (by decide) (by decide)
  exact ⟨⟨r, hr, hlen _ _ r hr⟩,
    (hupd ⟨"OpenGL Go Sprite Example", 1440, 810⟩ 499 2 2 ⟨10, 20, watermelon⟩
      (makeSlice (ObjectCount * 12)) (by decide) (by decide) (length_makeSlice _)).2⟩

/-! ## A tick rebuilds the whole position buffer -/

/-- C8: for every store of `ObjectCount` objects, every prior content of the position buffer
(of `ObjectCount * 12` scalars) and every stream of draws, one simulation tick returns, and its
position buffer is exactly the buffer the initial mesh build produces from the updated objects:
block `[i*12 .. i*12+11]` holds the quad positions of the updated `objects[i]`, and nothing of
the prior content remains. -/
theorem tick_eq_rebuild (w : Window) (raw : Nat → Nat) (s : World)
    (hobj : s.objects.length = ObjectCount) (hv : s.vertices.length = ObjectCount * 12) :
    ∃ s' uvs, tick w raw s = some s' ∧
      buildMesh s'.objects = some (s'.vertices, uvs) ∧
      ∀ (i : Nat) (object : Object), s'.objects[i]? = some object →
        (s'.vertices.drop (i * 12)).take 12 = quadPositions object := by
  obtain ⟨s', hs', hlo, hlv, -, -, -, hvq⟩ := tick_spec w raw s hobj hv
  obtain ⟨v, u, hb, hlv2, -, hvq2, -, -, -⟩ := buildLoop_spec s'.objects ObjectCount
    (makeSlice (ObjectCount * 12)) (makeSlice (ObjectCount * 12)) (by omega)
    (by rw [length_makeSlice]; omega) (by rw [length_makeSlice]; omega)
    (by rw [length_makeSlice]; decide) (by rw [length_makeSlice]; decide)
  rw [length_makeSlice] at hlv2
  have hveq : v = s'.vertices := by
    apply List.ext_getElem?
    intro m
    by_cases hm : m < ObjectCount * 12
    · have e : m = 12 * (m / 12) + m % 12 := by omega
      have hi : m / 12 < ObjectCount := by omega
      have hj : m % 12 < 12 := by omega
      rw [e, hvq2 _ _ hi hj, hvq _ _ hi hj]
    · rw [List.getElem?_eq_none (by omega), List.getElem?_eq_none (by omega)]
  refine ⟨s', u, hs', ?_, ?_⟩
  · rw [← hveq]; exact hb
  · intro i object hi
    have hlt : i < ObjectCount := by
      rw [← hlo]
      exact (List.getElem?_eq_some.1 hi).1
    apply block_eq_of_getElem? s'.vertices i (quadPositions object) rfl
    intro j hj
    rw [hvq i j hlt hj, hi, Option.some_bind]

/-- Witness of `tick_eq_rebuild`: a store of `ObjectCount` watermelons over a position buffer
filled with the stale value 7. -/
theorem tick_eq_rebuild_witness :
    ∃ s' uvs, tick ⟨"OpenGL Go Sprite Example", 1440, 810⟩ (fun n => n)
        ⟨List.replicate ObjectCount ⟨10, 20, watermelon⟩, List.replicate (ObjectCount * 12) 7,
          makeSlice (ObjectCount * 12), 0⟩ = some s' ∧
      buildMesh s'.objects = some (s'.vertices, uvs) :=
  have h := tick_eq_rebuild ⟨"OpenGL Go Sprite Example", 1440, 810⟩ (fun n => n)
    ⟨List.replicate ObjectCount ⟨10, 20, watermelon⟩, List.replicate (ObjectCount * 12) 7,
      makeSlice (ObjectCount * 12), 0⟩ (List.length_replicate _ _) (List.length_replicate _ _)
  h.elim fun s' h => h.elim fun uvs h => ⟨s', uvs, h.1, h.2.1⟩

/-! ## Sprites stay inside the window -/

theorem catalog_sizes (t : Texture) (ht : t ∈ possibleTextures) :
    16 ≤ t.width ∧ t.width ≤ 64 ∧ 16 ≤ t.height ∧ t.height ≤ 64 := by
  simp only [possibleTextures, List.mem_cons, List.mem_singleton, List.not_mem_nil,
    or_false] at ht
  rcases ht with rfl | rfl | rfl | rfl | rfl | rfl | rfl | rfl | rfl <;> decide

/-- C9: in a window with `10 + region.width ≤ width ≤ 32767` and
`10 + region.height ≤ height ≤ 32767`, for an object with a catalog region, whatever its start
position and the draws, the call `updateObject` of the render loop (an index below `ObjectCount`,
a buffer of `ObjectCount * 12` scalars) returns; the block of the object holds the quad
`[x, x+region.width] x [y, y+region.height]` of the new position without 16-bit wrap-around,
and all six vertices have their x-coordinate in `[5, width - 5]` and their y-coordinate in
`[5, height - 5]`. -/
theorem updateObject_inside_window (w : Window) (idx rx ry : Int) (object : Object)
    (vertices : List Int) (htex : object.texture ∈ possibleTextures)
    (hw : 10 + object.texture.width ≤ w.width) (hw16 : w.width ≤ 32767)
    (hh : 10 + object.texture.height ≤ w.height) (hh16 : w.height ≤ 32767)
    (h0 : 0 ≤ idx) (h1 : idx < ObjectCount) (hlen : vertices.length = ObjectCount * 12) :
    ∃ o' v', updateObject w idx rx ry object vertices = some (o', v') ∧
      (v'.drop (idx.toNat * 12)).take 12 =
        [o'.x + object.texture.width, o'.y,
         o'.x + object.texture.width, o'.y + object.texture.height,
         o'.x, o'.y,
         o'.x + object.texture.width, o'.y + object.texture.height,
         o'.x, o'.y + object.texture.height,
         o'.x, o'.y] ∧
      o'.x + object.texture.width ≤ 32767 ∧ o'.y + object.texture.height ≤ 32767 ∧
      (∀ k : Nat, k < 6 → ∃ vx vy, v'[idx.toNat * 12 + 2 * k]? = some vx ∧
        v'[idx.toNat * 12 + 2 * k + 1]? = some vy ∧
        5 ≤ vx ∧ vx ≤ w.width - 5 ∧ 5 ≤ vy ∧ vy ≤ w.height - 5) := by
  obtain ⟨i, rfl⟩ := Int.eq_ofNat_of_zero_le h0
  have hi : i < 500 := by simpa [ObjectCount] using h1
  have h500 : ObjectCount = 500 := rfl
  obtain ⟨htw0, htw1, hth0, hth1⟩ := catalog_sizes _ htex
  obtain ⟨v', hv', hlv, hm⟩ := updateObject_inRange w i rx ry object vertices
    (by omega) (by omega)
  obtain ⟨hx0, hx1, hy0, hy1⟩ := moveObject_clamped w rx ry object hw (by omega) hh (by omega)
  have hq := quadPositions_eq (moveObject w rx ry object)
    (by rw [moveObject_texture]; omega) (by rw [moveObject_texture]; omega)
  rw [moveObject_texture] at hq
  have hget : ∀ j : Nat, j < 12 → v'[12 * i + j]? =
      (quadPositions (moveObject w rx ry object))[j]? := by
    intro j hj
    have e : 12 * i + j - 12 * i = j := by omega
    rw [hm, if_pos ⟨by omega, by omega⟩, e]
  have hblock : (v'.drop (i * 12)).take 12 = quadPositions (moveObject w rx ry object) :=
    block_eq_of_getElem? v' i (quadPositions (moveObject w rx ry object)) rfl hget
  refine ⟨_, v', hv', ?_, by omega, by omega, ?_⟩
  · rw [Int.toNat_ofNat, hblock, hq]
  · intro k hk
    rw [Int.toNat_ofNat]
    have e0 : i * 12 + 2 * k = 12 * i + 2 * k := by omega
    have e1 : i * 12 + 2 * k + 1 = 12 * i + (2 * k + 1) := by omega
    rw [e1, e0, hget (2 * k) (by omega), hget (2 * k + 1) (by omega), hq]
    interval_cases k <;> simp <;> omega

/-- Witness of `updateObject_inside_window`: in the default window, a watermelon at the corner
`(32767, -32768)` of the `int16` range moved by `(+2, -2)`, as object 499. -/
theorem updateObject_inside_window_witness :
    ∃ o' v', updateObject ⟨"OpenGL Go Sprite Example", 1440, 810⟩ 499 4 0
        ⟨32767, -32768, watermelon⟩ (makeSlice (ObjectCount * 12)) = some (o', v') ∧
      (v'.drop (499 * 12)).take 12 =
        [o'.x + 64, o'.y, o'.x + 64, o'.y + 64, o'.x, o'.y,
         o'.x + 64, o'.y + 64, o'.x, o'.y + 64, o'.x, o'.y] ∧
      o'.x + 64 ≤ 32767 ∧ o'.y + 64 ≤ 32767 :=
  have h := updateObject_inside_window ⟨"OpenGL Go Sprite Example", 1440, 810⟩ 499 4 0
    ⟨32767, -32768, watermelon⟩ (makeSlice (ObjectCount * 12)) (by simp [possibleTextures])
    (by decide) (by decide) (by decide) (by decide) (by decide) (by decide) (length_makeSlice _)
  h.elim fun o' h => h.elim fun v' h => ⟨o', v', h.1, h.2.1, h.2.2.1, h.2.2.2.1⟩

/-! ## Catalog sampling in the creation loop -/

theorem initStep_spec (w : Window) (raw : Nat → Nat) (s s' : List Object × Nat)
    (h : initStep w raw s = some s') :
    ∃ r rx ry object,
      intn raw s.2 (wrapInt ((possibleTextures.length : Int) - 1)) = some r ∧
      r = (raw s.2 : Int) % 8 ∧ newObject r rx ry = some object ∧
      s' = (s.1 ++ [object], s.2 + 3) := by
  simp only [initStep, Option.bind_eq_some, Option.map_eq_some'] at h
  obtain ⟨r, hr, rx, -, ry, -, object, ho, hs⟩ := h
  refine ⟨r, rx, ry, object, hr, ?_, ho, hs.symm⟩
  rw [texIndex_bound] at hr
  simp only [intn] at hr
  rw [if_neg (by decide)] at hr
  exact (Option.some.inj hr).symm

theorem newObject_region (r rx ry : Int) (object : Object) (h0 : 0 ≤ r) (h1 : r < 8)
    (h : newObject r rx ry = some object) :
    possibleTextures[r.toNat]? = some object.texture ∧
      object.texture ∈ possibleTextures.take 8 ∧ object.texture ≠ raspberry := by
  obtain ⟨t, ht, htm, hn⟩ := newObject_of_lt r rx ry h0 h1
  rw [hn] at h
  have ho := Option.some.inj h
  subst ho
  exact ⟨ht, htm, ne_raspberry_of_mem_take t htm⟩

theorem initLoop_spec (w : Window) (raw : Nat → Nat) (n : Nat) (s r : List Object × Nat)
    (h : initLoop w raw n s = some r) :
    r.2 = s.2 + 3 * n ∧ r.1.length = s.1.length + n ∧
    ∀ i : Nat, i < n → ∃ rx ry object, r.1[s.1.length + i]? = some object ∧
      newObject ((raw (s.2 + 3 * i) : Int) % 8) rx ry = some object := by
  induction n generalizing r with
  | zero =>
    simp only [initLoop, Option.some.injEq] at h
    subst h
    exact ⟨rfl, rfl, fun i hi => absurd hi (Nat.not_lt_zero i)⟩
  | succ n ih =>
    simp only [initLoop, Option.bind_eq_some] at h
    obtain ⟨r1, h1, h2⟩ := h
    obtain ⟨hc, hl, hobj⟩ := ih r1 h1
    obtain ⟨k, rx, ry, object, -, hk, ho, rfl⟩ := initStep_spec w raw r1 _ h2
    refine ⟨?_, ?_, ?_⟩
    · simp only [hc]; omega
    · simp only [List.length_append, hl, List.length_singleton]; omega
    intro i hi
    by_cases hin : i < n
    · obtain ⟨rx', ry', o', ho', hn'⟩ := hobj i hin
      refine ⟨rx', ry', o', ?_, hn'⟩
      rw [List.getElem?_append_left (by omega)]
      exact ho'
    · have hi' : i = n := by omega
      subst hi'
      refine ⟨rx, ry, object, ?_, ?_⟩
      · rw [← hl, List.getElem?_append_right (le_refl _)]
        simp
      · rw [← hc, ← hk]
        exact ho

/-- C3: in the creation loop of lines 266-274 the argument of `rand.Intn` in line 267 is
`len(possibleTextures) - 1 = 8`; whatever value `r` that call returns (`0 ≤ r < 8`), the
iteration appends an object whose region is `possibleTextures[r]`, one of the first eight catalog
entries and different from the last entry `possibleTextures[8]`, raspberry; every one of the
eight values is taken for a suitable draw; so every object of the store that the loop returns
has a region of the first eight entries and none has raspberry. -/
theorem initObjects_textures (w : Window) (raw : Nat → Nat) :
    wrapInt ((possibleTextures.length : Int) - 1) = 8 ∧
    possibleTextures[8]? = some raspberry ∧ possibleTextures.getLast? = some raspberry ∧
    (∀ s s' : List Object × Nat, initStep w raw s = some s' →
      ∃ r object, intn raw s.2 (wrapInt ((possibleTextures.length : Int) - 1)) = some r ∧
        0 ≤ r ∧ r < 8 ∧ s' = (s.1 ++ [object], s.2 + 3) ∧
        possibleTextures[r.toNat]? = some object.texture ∧
        object.texture ∈ possibleTextures.take 8 ∧ object.texture ≠ raspberry) ∧
    (∀ (s : List Object × Nat) (k : Nat), k < 8 → raw s.2 = k → 0 < w.width → 0 < w.height →
      ∃ s' object, initStep w raw s = some s' ∧ s' = (s.1 ++ [object], s.2 + 3) ∧
        possibleTextures[k]? = some object.texture) ∧
    (∀ r : List Object × Nat, initObjects w raw = some r → r.1.length = ObjectCount ∧
      ∀ (i : Nat) (object : Object), r.1[i]? = some object →
        possibleTextures[raw (3 * i) % 8]? = some object.texture ∧
        object.texture ∈ possibleTextures.take 8 ∧ object.texture ≠ raspberry) ∧
    (0 < w.width → 0 < w.height → ∃ r, initObjects w raw = some r) := by
  have hstep : ∀ s s' : List Object × Nat, initStep w raw s = some s' →
      ∃ r object, intn raw s.2 (wrapInt ((possibleTextures.length : Int) - 1)) = some r ∧
        r = (raw s.2 : Int) % 8 ∧ s' = (s.1 ++ [object], s.2 + 3) ∧
        possibleTextures[r.toNat]? = some object.texture ∧
        object.texture ∈ possibleTextures.take 8 ∧ object.texture ≠ raspberry := by
    intro s s' h
    obtain ⟨r, rx, ry, object, hr, hk, ho, hs⟩ := initStep_spec w raw s s' h
    obtain ⟨h1, h2, h3⟩ := newObject_region r rx ry object (by omega) (by omega) ho
    exact ⟨r, object, hr, hk, hs, h1, h2, h3⟩
  refine ⟨texIndex_bound, rfl, rfl, ?_, ?_, ?_, ?_⟩
  · intro s s' h
    obtain ⟨r, object, hr, hk, hs, h1, h2, h3⟩ := hstep s s' h
    exact ⟨r, object, hr, by omega, by omega, hs, h1, h2, h3⟩
  · intro s k hk hraw hw hh
    obtain ⟨s', hs'⟩ := initStep_isSome w raw s hw hh
    obtain ⟨r, object, -, hr, hs, h1, -, -⟩ := hstep s s' hs'
    refine ⟨s', object, hs', hs, ?_⟩
    have e : r.toNat = k := by omega
    rw [← e]
    exact h1
  · intro r h
    obtain ⟨-, hl, hobj⟩ := initLoop_spec w raw ObjectCount ([], 0) r h
    have hlen : r.1.length = ObjectCount := by simpa using hl
    refine ⟨hlen, ?_⟩
    intro i object hi
    have hlt : i < ObjectCount := by
      rw [← hlen]
      exact (List.getElem?_eq_some.1 hi).1
    obtain ⟨rx, ry, o', ho', hn⟩ := hobj i hlt
    simp only [List.length_nil, Nat.zero_add] at ho' hn
    rw [hi] at ho'
    have e := Option.some.inj ho'
    subst e
    obtain ⟨h1, h2, h3⟩ := newObject_region _ rx ry object
      (Int.emod_nonneg _ (by decide)) (Int.emod_lt_of_pos _ (by decide)) hn
    refine ⟨?_, h2, h3⟩
    have e : ((raw (3 * i) : Int) % 8).toNat = raw (3 * i) % 8 := by omega
    rw [← e]
    exact h1
  · intro hw hh
    exact initLoop_isSome w raw ObjectCount ([], 0) hw hh

/-- Witness of `initObjects_textures`: in the default window with the draws `0, 1, 2, ...` the
loop returns a store of `ObjectCount` objects; the draw of object 7 is `21`, so `texIndex = 5`
and its region is the banana, not the raspberry. -/
theorem initObjects_textures_witness :
    ∃ r, initObjects ⟨"OpenGL Go Sprite Example", 1440, 810⟩ (fun n => n) = some r ∧
      r.1.length = ObjectCount ∧
      ∃ object, r.1[7]? = some object ∧ object.texture = banana ∧
        object.texture ≠ raspberry := by
  obtain ⟨-, -, -, -, -, hloop, hsome⟩ :=
    initObjects_textures ⟨"OpenGL Go Sprite Example", 1440, 810⟩ (fun n => n)
  obtain ⟨r, hr⟩ := hsome (by decide) (by decide)
  obtain ⟨hlen, hobj⟩ := hloop r hr
  have h7 : 7 < r.1.length := by rw [hlen]; decide
  obtain ⟨h1, -, h3⟩ := hobj 7 r.1[7] (List.getElem?_eq_getElem h7)
  have hb : possibleTextures[(fun n : Nat => n) (3 * 7) % 8]? = some banana := rfl
  rw [hb] at h1
  exact ⟨r, hr, hlen, r.1[7], List.getElem?_eq_getElem h7, (Option.some.inj h1).symm, h3⟩

end Game
